import Mathlib

/-!
Shallow embedding of the UI components of this matrix-react-sdk fragment:

* `RoomDirectory` (the room directory browser dialog),
* `VideoFeed` and `SpaceCreateMenu` (video call tile and space-creation wizard),
* `LeftPanelLiveShareWarning` (live-location-sharing indicator).

JS strings are Lean `String`s; nullable values are `Option`s, with JS
truthiness made explicit where the code branches on a possibly-null or
possibly-empty string; JS objects used as string-keyed maps are functions
`String → Option String` built by successive assignments; asynchronous
request/response pairs are modelled by passing the eventual response as an
explicit argument to the handler that the code installs on the promise.
-/

namespace MatrixReactSdk

/-- JS truthiness of a nullable string: `null`/`undefined` and `""` are falsy,
every other string is truthy. -/
def jsTruthy : Option String → Bool
  | none => false
  | some s => s ≠ ""

/-! ## RoomDirectory: data model

State of the `RoomDirectory` component (`IState` plus the private mutable
fields `nextBatch` and `unmounted` of the class). -/

/-- The parts of an `IPublicRoomsChunkRoom` that the directory uses. -/
structure PublicRoom where
  room_id : String
  name : Option String
  topic : Option String
  deriving DecidableEq

/-- Component state of `RoomDirectory`: the React `IState` fields together
with the instance fields `nextBatch` and `unmounted`. -/
structure RDState where
  publicRooms : List PublicRoom
  loading : Bool
  error : Option String
  filterString : String
  roomServer : String
  instanceId : Option String
  nextBatch : Option String
  unmounted : Bool
  deriving DecidableEq

/-- The locals `filterString`, `roomServer` and `nextBatch` that
`getMoreRooms` captures when it sends a `publicRooms` request. -/
structure RDSnapshot where
  filterString : String
  roomServer : String
  nextBatch : Option String
  deriving DecidableEq

/-- Outcome of a `publicRooms` request: fulfilment with a (possibly absent)
`chunk` and `next_batch`, or rejection with a (possibly absent) message. -/
inductive PublicRoomsResponse where
  | success (chunk : Option (List PublicRoom)) (next_batch : Option String)
  | failure (message : Option String)
  deriving DecidableEq

/-- The pair of handlers `getMoreRooms` installs on the `publicRooms`
promise. Both first compare the captured snapshot against the current state
and return `false` without touching anything when they differ; then both
check `unmounted`. The fulfilment handler stores `next_batch`, appends the
chunk and returns `Boolean(data.next_batch)`; the rejection handler stores
the error message (the ternary's condition is a concatenation with a
non-empty translated string, hence always truthy, so `err.message` is
stored as-is) and falls off the end, resolving falsy. -/
def handlePublicRoomsResponse (snap : RDSnapshot) (resp : PublicRoomsResponse)
    (s : RDState) : RDState × Bool :=
  if snap.filterString ≠ s.filterString ∨ snap.roomServer ≠ s.roomServer ∨
      snap.nextBatch ≠ s.nextBatch then
    (s, false)
  else if s.unmounted then
    (s, false)
  else
    match resp with
    | .success chunk next_batch =>
        ({ s with nextBatch := next_batch,
                  publicRooms := s.publicRooms ++ chunk.getD [],
                  loading := false },
         jsTruthy next_batch)
    | .failure message =>
        ({ s with loading := false, error := message }, false)

/-! ## Claim C1 -/

/-- C1: for every in-flight `publicRooms` request, if the filter string, the
room server, or the next-batch token recorded when the request was sent
differs from the current state when the response (success or error)
arrives, the response is discarded: the state (in particular `publicRooms`,
`loading`, `error` and `nextBatch`) is left unchanged and the handler
returns `false`. -/
theorem roomDirectory_stale_response_discarded
    (snap : RDSnapshot) (resp : PublicRoomsResponse) (s : RDState)
    (h : snap.filterString ≠ s.filterString ∨ snap.roomServer ≠ s.roomServer ∨
      snap.nextBatch ≠ s.nextBatch) :
    handlePublicRoomsResponse snap resp s = (s, false) := by
  unfold handlePublicRoomsResponse
  rw [if_pos h]

/-- Witness for C1 at a concrete stale response: the filter changed from
"cats" to "dogs" while the request was in flight, so the successful
response (which does carry a chunk and a further token) is dropped. -/
theorem roomDirectory_stale_response_discarded_witness :
    handlePublicRoomsResponse
      { filterString := "cats", roomServer := "matrix.org", nextBatch := none }
      (.success (some [{ room_id := "!r:matrix.org", name := some "Cats",
                         topic := none }]) (some "tok2"))
      { publicRooms := [], loading := true, error := none,
        filterString := "dogs", roomServer := "matrix.org",
        instanceId := none, nextBatch := none, unmounted := false }
    = ({ publicRooms := [], loading := true, error := none,
         filterString := "dogs", roomServer := "matrix.org",
         instanceId := none, nextBatch := none, unmounted := false },
       false) :=
  roomDirectory_stale_response_discarded _ _ _ (Or.inl (by decide))

/-! ## RoomDirectory: fetching more rooms -/

/-- The `ALL_ROOMS` sentinel exported by `NetworkDropdown`; the directory
only compares `instanceId` against it, so its identity is irrelevant. -/
def ALL_ROOMS : String := "ALL_ROOMS"

/-- The `IRoomDirectoryOptions` object that `getMoreRooms` builds: a field
is `none` when the corresponding assignment is skipped. -/
structure RoomDirectoryOpts where
  limit : Nat
  server : Option String
  include_all_networks : Bool
  third_party_instance_id : Option String
  since : Option String
  generic_search_term : Option String
  deriving DecidableEq

/-- The options `getMoreRooms` sends: `limit: 20` always; `server` only when
the selected server differs from the homeserver; `include_all_networks`
when `instanceId` is the `ALL_ROOMS` sentinel, else `third_party_instance_id`
when `instanceId` is truthy; `since` when `nextBatch` is truthy; a generic
search filter when the filter string is non-empty. -/
def getMoreRoomsOpts (homeserver : String) (s : RDState) : RoomDirectoryOpts :=
  { limit := 20
    server := if s.roomServer ≠ homeserver then some s.roomServer else none
    include_all_networks := s.instanceId = some ALL_ROOMS
    third_party_instance_id :=
      if s.instanceId ≠ some ALL_ROOMS ∧ jsTruthy s.instanceId then s.instanceId else none
    since := if jsTruthy s.nextBatch then s.nextBatch else none
    generic_search_term :=
      if s.filterString ≠ "" then some s.filterString else none }

/-- `getMoreRooms`, with the network round trip made explicit: it returns
the request that was sent (`none` when there is no client and the promise
resolves `false` immediately), the state after the response handler ran,
and the boolean the promise resolves to. The snapshot handed to the
handler is taken from the state at send time; `resp` is the eventual
response, and the state at response time is the same state because no
other event runs in between in this synchronous model. -/
def getMoreRooms (homeserver : String) (hasClient : Bool) (s : RDState)
    (resp : PublicRoomsResponse) : Option RoomDirectoryOpts × RDState × Bool :=
  if ¬hasClient then (none, s, false)
  else
    let s1 : RDState := { s with loading := true }
    let snap : RDSnapshot :=
      { filterString := s1.filterString, roomServer := s1.roomServer,
        nextBatch := s1.nextBatch }
    let opts := getMoreRoomsOpts homeserver s1
    let out := handlePublicRoomsResponse snap resp s1
    (some opts, out.1, out.2)

/-- `onFillRequest`: backward fills, and forward fills without a truthy
`nextBatch` token, resolve `false` at once; otherwise `getMoreRooms` runs. -/
def onFillRequest (homeserver : String) (hasClient : Bool) (backwards : Bool)
    (s : RDState) (resp : PublicRoomsResponse) :
    Option RoomDirectoryOpts × RDState × Bool :=
  if backwards ∨ ¬jsTruthy s.nextBatch then (none, s, false)
  else getMoreRooms homeserver hasClient s resp

/-! ## Claim C4 -/

/-- C4: a fill request triggers a further fetch if and only if it is a
forward fill and a next-batch token from the previous response exists; the
fetch requests at most 20 rooms and passes the stored token as `since`;
and on a successful response (the component still mounted) the returned
chunk is appended to the existing `publicRooms` list and the promise
resolves `true` exactly when the response carries another `next_batch`
token. -/
theorem roomDirectory_fill_request
    (homeserver : String) (backwards : Bool) (s : RDState)
    (chunk : List PublicRoom) (next_batch : Option String)
    (hmounted : s.unmounted = false) :
    (((onFillRequest homeserver true backwards s
        (.success (some chunk) next_batch)).1.isSome) ↔
      (backwards = false ∧ jsTruthy s.nextBatch = true)) ∧
    (∀ opts, (onFillRequest homeserver true backwards s
        (.success (some chunk) next_batch)).1 = some opts →
      opts.limit = 20 ∧ opts.since = s.nextBatch) ∧
    (backwards = false → jsTruthy s.nextBatch = true →
      (onFillRequest homeserver true backwards s
          (.success (some chunk) next_batch)).2.1.publicRooms
        = s.publicRooms ++ chunk ∧
      ((onFillRequest homeserver true backwards s
          (.success (some chunk) next_batch)).2.2 = true ↔
        jsTruthy next_batch = true)) := by
  by_cases hb : backwards = true
  · subst hb
    simp [onFillRequest]
  · have hb' : backwards = false := by
      cases backwards
      · rfl
      · exact absurd rfl hb
    subst hb'
    by_cases hnb : jsTruthy s.nextBatch = true
    · have hsince : (if jsTruthy s.nextBatch then s.nextBatch else none) = s.nextBatch := by
        rw [if_pos hnb]
      have hfresh :
          handlePublicRoomsResponse
            { filterString := s.filterString, roomServer := s.roomServer,
              nextBatch := s.nextBatch }
            (.success (some chunk) next_batch)
            { s with loading := true }
          = ({ s with nextBatch := next_batch,
                      publicRooms := s.publicRooms ++ chunk,
                      loading := false },
             jsTruthy next_batch) := by
        unfold handlePublicRoomsResponse
        rw [if_neg (by simp), if_neg (by simp [hmounted])]
        rfl
      refine ⟨by simp [onFillRequest, getMoreRooms, hnb], ?_, ?_⟩
      · intro opts hopts
        simp only [onFillRequest, getMoreRooms, hnb, Bool.not_true,
          Bool.false_eq_true, false_or, not_true, if_false, ite_false,
          not_true_eq_false, Option.some.injEq] at hopts
        subst hopts
        exact ⟨rfl, by simp [getMoreRoomsOpts, hsince]⟩
      · intro _ _
        simp [onFillRequest, getMoreRooms, hnb, hfresh]
    · have hnb' : jsTruthy s.nextBatch = false := by
        cases h : jsTruthy s.nextBatch
        · rfl
        · exact absurd h hnb
      constructor
      · simp [onFillRequest, hnb']
      constructor
      · intro opts hopts
        simp [onFillRequest, hnb'] at hopts
      · intro _ hcontra
        rw [hnb'] at hcontra
        cases hcontra

/-- Witness for C4: from a state holding one room and a stored token
"tok1", a forward fill fetches with `limit 20`, `since "tok1"`, appends the
two returned rooms, and resolves `true` because the response carries
"tok2". -/
theorem roomDirectory_fill_request_witness :
    ((onFillRequest "matrix.org" true false
        { publicRooms := [{ room_id := "!a:matrix.org", name := none, topic := none }],
          loading := false, error := none, filterString := "",
          roomServer := "matrix.org", instanceId := none,
          nextBatch := some "tok1", unmounted := false }
        (.success (some [{ room_id := "!b:matrix.org", name := none, topic := none },
                         { room_id := "!c:matrix.org", name := none, topic := none }])
          (some "tok2"))).1.isSome ↔ (false = false ∧ jsTruthy (some "tok1") = true)) :=
  (roomDirectory_fill_request "matrix.org" false
    { publicRooms := [{ room_id := "!a:matrix.org", name := none, topic := none }],
      loading := false, error := none, filterString := "",
      roomServer := "matrix.org", instanceId := none,
      nextBatch := some "tok1", unmounted := false }
    [{ room_id := "!b:matrix.org", name := none, topic := none },
     { room_id := "!c:matrix.org", name := none, topic := none }]
    (some "tok2") (by decide)).1

/-! ## RoomDirectory: server/network option changes and localStorage -/

/-- `localStorage`, as a map from keys to stored strings. -/
def LocalStorage : Type := String → Option String

/-- `localStorage.setItem`. -/
def lsSetItem (ls : LocalStorage) (k v : String) : LocalStorage :=
  fun x => if x = k then some v else ls x

/-- `localStorage.removeItem`. -/
def lsRemoveItem (ls : LocalStorage) (k : String) : LocalStorage :=
  fun x => if x = k then none else ls x

def LAST_SERVER_KEY : String := "mx_last_room_directory_server"

def LAST_INSTANCE_KEY : String := "mx_last_room_directory_instance"

/-- `onOptionChange(server, instanceId?)`: clears `nextBatch` and
`publicRooms`, stores the new server and instance id in the state and
clears the error (then `refreshRoomList` runs as the `setState` callback;
the returned state is the one it sees); persists the server under
`LAST_SERVER_KEY`, and the instance id under `LAST_INSTANCE_KEY` when it
is truthy, removing that key otherwise. -/
def onOptionChange (server : String) (instanceId : Option String)
    (s : RDState) (ls : LocalStorage) : RDState × LocalStorage :=
  let s' : RDState :=
    { s with nextBatch := none, publicRooms := [], roomServer := server,
             instanceId := instanceId, error := none }
  let ls1 := lsSetItem ls LAST_SERVER_KEY server
  let ls2 :=
    if jsTruthy instanceId then
      lsSetItem ls1 LAST_INSTANCE_KEY
        (match instanceId with
         | some id => id
         | none => "")
    else lsRemoveItem ls1 LAST_INSTANCE_KEY
  (s', ls2)

/-! ## Claim C6 -/

/-- C6: every server/network option change persists the selected server
under `"mx_last_room_directory_server"`; it stores the instance id under
`"mx_last_room_directory_instance"` exactly when a truthy instance id is
given and removes that key otherwise (so the string "undefined" is never
stored for an absent id); and it resets `nextBatch` to `null` and clears
`publicRooms` (the state `refreshRoomList` then runs from). -/
theorem roomDirectory_option_change_persists
    (server : String) (instanceId : Option String)
    (s : RDState) (ls : LocalStorage) :
    (onOptionChange server instanceId s ls).2 LAST_SERVER_KEY = some server ∧
    (onOptionChange server instanceId s ls).2 LAST_INSTANCE_KEY
      = (if jsTruthy instanceId then instanceId else none) ∧
    (onOptionChange server instanceId s ls).1.nextBatch = none ∧
    (onOptionChange server instanceId s ls).1.publicRooms = [] ∧
    (onOptionChange server instanceId s ls).1.roomServer = server ∧
    (onOptionChange server instanceId s ls).1.instanceId = instanceId := by
  refine ⟨?_, ?_, rfl, rfl, rfl, rfl⟩
  · by_cases h : jsTruthy instanceId
    · simp [onOptionChange, h, lsSetItem, lsRemoveItem, LAST_SERVER_KEY,
        LAST_INSTANCE_KEY]
    · simp [onOptionChange, h, lsSetItem, lsRemoveItem, LAST_SERVER_KEY,
        LAST_INSTANCE_KEY]
  · by_cases h : jsTruthy instanceId
    · cases instanceId with
      | none => simp [jsTruthy] at h
      | some id =>
        simp only [jsTruthy, ne_eq, decide_eq_true_eq] at h
        simp [onOptionChange, jsTruthy, h, lsSetItem]
    · simp [onOptionChange, h, lsSetItem, lsRemoveItem, LAST_SERVER_KEY,
        LAST_INSTANCE_KEY]

/-! ## RoomDirectory: third-party protocol fields -/

/-- A JS object used as a string-keyed map of strings. -/
def JsObject : Type := String → Option String

/-- Assignment `obj[k] = v` on a JS object. -/
def jsAssign (m : JsObject) (k v : String) : JsObject :=
  fun x => if x = k then some v else m x

/-- The loop of `getFieldsForThirdPartyLocation`: walk the non-last
required fields in order, returning `null` as soon as one is absent from
the instance's fields, otherwise assigning each into the object. -/
def collectInstanceFields (instFields : String → Option String) :
    List String → JsObject → Option JsObject
  | [], m => some m
  | f :: rest, m =>
      match instFields f with
      | none => none
      | some v => collectInstanceFields instFields rest (jsAssign m f v)

/-- The key used by `fields[requiredFields[requiredFields.length - 1]]`:
the last required field, except that for an empty list the JS index is out
of range, yields `undefined`, and coerces to the property key
`"undefined"`. -/
def jsLastFieldKey (rf : List String) : String :=
  match rf.getLast? with
  | some f => f
  | none => "undefined"

/-- `getFieldsForThirdPartyLocation(userInput, protocol, instance)`. The
protocol's `location_fields` is `none` when the property is absent (only
then is `!requiredFields` truthy in JS — an empty array is truthy); the
instance's fields are `instFields`. -/
def getFieldsForThirdPartyLocation (userInput : String)
    (location_fields : Option (List String))
    (instFields : String → Option String) : Option JsObject :=
  match location_fields with
  | none => none
  | some rf =>
      match collectInstanceFields instFields rf.dropLast (fun _ => none) with
      | none => none
      | some m => some (jsAssign m (jsLastFieldKey rf) userInput)

lemma collectInstanceFields_eq_none_iff (instFields : String → Option String)
    (fields : List String) (m0 : JsObject) :
    collectInstanceFields instFields fields m0 = none ↔
      ∃ f ∈ fields, instFields f = none := by
  induction fields generalizing m0 with
  | nil => simp [collectInstanceFields]
  | cons f rest ih =>
      cases h : instFields f with
      | none =>
          simp only [collectInstanceFields, h, List.mem_cons]
          exact iff_of_true trivial ⟨f, Or.inl rfl, h⟩
      | some v =>
          simp only [collectInstanceFields, h, ih, List.mem_cons]
          constructor
          · rintro ⟨g, hg, hnone⟩
            exact ⟨g, Or.inr hg, hnone⟩
          · rintro ⟨g, hg | hg, hnone⟩
            · rw [hg, h] at hnone
              cases hnone
            · exact ⟨g, hg, hnone⟩

lemma collectInstanceFields_lookup (instFields : String → Option String)
    (fields : List String) (m0 m : JsObject)
    (h : collectInstanceFields instFields fields m0 = some m) (k : String) :
    m k = if k ∈ fields then instFields k else m0 k := by
  induction fields generalizing m0 with
  | nil =>
      simp only [collectInstanceFields, Option.some.injEq] at h
      subst h
      simp
  | cons f rest ih =>
      cases hf : instFields f with
      | none => simp [collectInstanceFields, hf] at h
      | some v =>
          simp only [collectInstanceFields, hf] at h
          have hm := ih (jsAssign m0 f v) h
          by_cases hk : k ∈ rest
          · rw [hm, if_pos hk, if_pos (List.mem_cons_of_mem f hk)]
          · by_cases hkf : k = f
            · subst hkf
              rw [hm, if_neg hk, if_pos (List.mem_cons_self k rest)]
              simp [jsAssign, hf]
            · rw [hm, if_neg hk,
                if_neg (by simp [List.mem_cons, hkf, hk])]
              simp [jsAssign, hkf]

lemma getFields_some_eq (userInput : String) (rf : List String)
    (instFields : String → Option String) :
    getFieldsForThirdPartyLocation userInput (some rf) instFields
      = Option.map (fun m => jsAssign m (jsLastFieldKey rf) userInput)
          (collectInstanceFields instFields rf.dropLast (fun _ => none)) := by
  cases hc : collectInstanceFields instFields rf.dropLast (fun _ => none) with
  | none => simp [getFieldsForThirdPartyLocation, hc]
  | some m0 => simp [getFieldsForThirdPartyLocation, hc]

/-! ## Claim C7 (corrected) -/

/-- Counterexample to C7 as stated: with an empty `location_fields` array
(truthy in JS, so `!requiredFields` does not fire) the function does not
return `null`; it returns an object binding the key `"undefined"` — which
is not a required field — to the user input, rather than binding "the last
required field" of the (empty) required list. -/
theorem roomDirectory_third_party_fields_empty_counterexample :
    ∃ m, getFieldsForThirdPartyLocation "input" (some [])
        (fun _ => none) = some m ∧
      m "undefined" = some "input" ∧ "undefined" ∉ ([] : List String) :=
  ⟨jsAssign (fun _ => none) "undefined" "input", rfl, rfl, by simp⟩

/-- C7 amended: when `location_fields` is absent the result is `null`, and
when it is a *non-empty* list the result is `null` exactly when some
required field other than the last is absent from the instance's fields;
otherwise it is the map assigning each non-last required field its value
from the instance, the last required field the user input, and nothing
else. (For an empty `location_fields` list the code instead returns a
singleton map binding the key `"undefined"` to the user input.) -/
theorem roomDirectory_third_party_fields (userInput : String)
    (locFields : Option (List String)) (instFields : String → Option String) :
    (locFields = none →
      getFieldsForThirdPartyLocation userInput locFields instFields = none) ∧
    (∀ rf, locFields = some rf → rf ≠ [] →
      (getFieldsForThirdPartyLocation userInput locFields instFields = none ↔
        ∃ f ∈ rf.dropLast, instFields f = none) ∧
      (∀ m, getFieldsForThirdPartyLocation userInput locFields instFields
          = some m →
        m (jsLastFieldKey rf) = some userInput ∧
        (∀ f ∈ rf.dropLast, f ≠ jsLastFieldKey rf → m f = instFields f) ∧
        (∀ k, k ≠ jsLastFieldKey rf → k ∉ rf.dropLast → m k = none))) := by
  constructor
  · intro h
    subst h
    rfl
  · intro rf hrf _
    subst hrf
    constructor
    · rw [getFields_some_eq, Option.map_eq_none']
      exact collectInstanceFields_eq_none_iff instFields rf.dropLast _
    · intro m hm
      rw [getFields_some_eq] at hm
      cases hc : collectInstanceFields instFields rf.dropLast (fun _ => none) with
      | none =>
          rw [hc] at hm
          cases hm
      | some m0 =>
          rw [hc] at hm
          simp only [Option.map_some', Option.some.injEq] at hm
          subst hm
          have hlook := collectInstanceFields_lookup instFields rf.dropLast
            (fun _ => none) m0 hc
          refine ⟨by simp [jsAssign], ?_, ?_⟩
          · intro f hf hne
            simp only [jsAssign, if_neg hne]
            rw [hlook f, if_pos hf]
          · intro k hk hk'
            simp only [jsAssign, if_neg hk]
            rw [hlook k, if_neg hk']

/-- Witness for C7 at a concrete protocol with required fields
`["network", "channel"]` and an instance carrying `network = "freenode"`:
the result binds `channel` to the user input and `network` to the
instance's value. -/
theorem roomDirectory_third_party_fields_witness :
    ∃ m, getFieldsForThirdPartyLocation "#chan" (some ["network", "channel"])
        (fun k => if k = "network" then some "freenode" else none) = some m ∧
      m "channel" = some "#chan" ∧ m "network" = some "freenode" := by
  have main := (roomDirectory_third_party_fields "#chan"
    (some ["network", "channel"])
    (fun k => if k = "network" then some "freenode" else none)).2
    ["network", "channel"] rfl (by simp)
  have hsome : getFieldsForThirdPartyLocation "#chan"
      (some ["network", "channel"])
      (fun k => if k = "network" then some "freenode" else none)
      = some (jsAssign (jsAssign (fun _ => none) "network" "freenode")
          "channel" "#chan") := rfl
  have hconc := main.2 _ hsome
  refine ⟨_, hsome, ?_, ?_⟩
  · simpa [jsLastFieldKey] using hconc.1
  · simpa using hconc.2.1 "network" (by simp) (by decide)

/-! ## RoomDirectory: room cell truncation

In `createRoomCells`, text is a JS string; we model it as its list of
UTF-16 code units, which is what `length` and `substring` operate on. -/

def MAX_NAME_LENGTH : Nat := 80

def MAX_TOPIC_LENGTH : Nat := 800

/-- The displayed room name: `substring(0, MAX_NAME_LENGTH)` plus "..."
when the name is longer than `MAX_NAME_LENGTH`. -/
def truncateRoomName (name : List Char) : List Char :=
  if name.length > MAX_NAME_LENGTH then
    name.take MAX_NAME_LENGTH ++ "...".toList
  else name

/-- The topic string handed to `linkifyAndSanitizeHtml`:
`substring(0, MAX_TOPIC_LENGTH)` plus "..." when the topic is longer than
`MAX_TOPIC_LENGTH`. -/
def truncateRoomTopic (topic : List Char) : List Char :=
  if topic.length > MAX_TOPIC_LENGTH then
    topic.take MAX_TOPIC_LENGTH ++ "...".toList
  else topic

/-! ## Claim C9 -/

/-- C9: the displayed room name never exceeds 83 characters, the topic
string passed to HTML sanitization never exceeds 803, and inputs over the
limits are cut to their first 80 (resp. 800) characters plus "...". -/
theorem roomDirectory_truncation_bounds (name topic : List Char) :
    (truncateRoomName name).length ≤ 83 ∧
    (truncateRoomTopic topic).length ≤ 803 ∧
    (name.length > 80 →
      truncateRoomName name = name.take 80 ++ "...".toList) ∧
    (topic.length > 800 →
      truncateRoomTopic topic = topic.take 800 ++ "...".toList) := by
  refine ⟨?_, ?_, ?_, ?_⟩
  · by_cases h : name.length > MAX_NAME_LENGTH
    · simp only [truncateRoomName, if_pos h, List.length_append,
        List.length_take]
      have h3 : ("...".toList).length = 3 := rfl
      have h80 : MAX_NAME_LENGTH = 80 := rfl
      omega
    · simp only [truncateRoomName, if_neg h]
      simp only [MAX_NAME_LENGTH, not_lt] at h
      omega
  · by_cases h : topic.length > MAX_TOPIC_LENGTH
    · simp only [truncateRoomTopic, if_pos h, List.length_append,
        List.length_take]
      have h3 : ("...".toList).length = 3 := rfl
      have h800 : MAX_TOPIC_LENGTH = 800 := rfl
      omega
    · simp only [truncateRoomTopic, if_neg h]
      simp only [MAX_TOPIC_LENGTH, not_lt] at h
      omega
  · intro h
    simp only [truncateRoomName, MAX_NAME_LENGTH, if_pos h]
  · intro h
    simp only [truncateRoomTopic, MAX_TOPIC_LENGTH, if_pos h]

/-- Witness for C9: an 81-character name and an 801-character topic are
cut to 80 (resp. 800) characters plus "...". -/
theorem roomDirectory_truncation_bounds_witness :
    truncateRoomName (List.replicate 81 'a')
      = (List.replicate 81 'a').take 80 ++ "...".toList ∧
    truncateRoomTopic (List.replicate 801 'b')
      = (List.replicate 801 'b').take 800 ++ "...".toList :=
  ⟨(roomDirectory_truncation_bounds (List.replicate 81 'a')
      (List.replicate 801 'b')).2.2.1 (by rw [List.length_replicate]; omega),
   (roomDirectory_truncation_bounds (List.replicate 81 'a')
      (List.replicate 801 'b')).2.2.2 (by rw [List.length_replicate]; omega)⟩

/-! ## RoomDirectory: search debouncing

`onFilterChange` manages a single `setTimeout` handle in the instance
field `filterTimeout`. We model the browser timer queue explicitly: a list
of scheduled `(id, fireTime)` pairs (the callbacks all being the debounce
callback, which nulls `filterTimeout` and calls `refreshRoomList`), a
fresh-id counter, and a count of `refreshRoomList` invocations. -/

structure FilterTimerState where
  timers : List (Nat × Nat)
  nextId : Nat
  filterTimeout : Option Nat
  refreshCount : Nat
  deriving DecidableEq

def initFilterTimerState : FilterTimerState :=
  { timers := [], nextId := 0, filterTimeout := none, refreshCount := 0 }

/-- `clearTimeout(id)`: unschedule the timer with that handle. -/
def clearTimeoutById (w : FilterTimerState) (id : Nat) : FilterTimerState :=
  { w with timers := w.timers.filter (fun p => p.1 ≠ id) }

/-- `onFilterChange` at time `t` (its debounce part): if `filterTimeout`
holds a handle, `clearTimeout` it; then schedule a fresh timer for
`t + 700` and remember its handle. -/
def onFilterChange (t : Nat) (w : FilterTimerState) : FilterTimerState :=
  let w1 :=
    match w.filterTimeout with
    | some id => clearTimeoutById w id
    | none => w
  { w1 with timers := w1.timers ++ [(w1.nextId, t + 700)],
            filterTimeout := some w1.nextId,
            nextId := w1.nextId + 1 }

/-- Time reaching `t`: every timer due at or before `t` fires. The
debounce callback sets `filterTimeout` to null and calls
`refreshRoomList`. -/
def elapseTo (t : Nat) (w : FilterTimerState) : FilterTimerState :=
  let due := w.timers.filter (fun p => decide (p.2 ≤ t))
  { w with timers := w.timers.filter (fun p => ! decide (p.2 ≤ t)),
           filterTimeout := if due.length > 0 then none else w.filterTimeout,
           refreshCount := w.refreshCount + due.length }

/-- An event affecting the debounce machinery: a keystroke
(`onFilterChange` at time `t`) or the passage of time up to `t`. -/
inductive FilterEvent where
  | change (t : Nat)
  | elapse (t : Nat)
  deriving DecidableEq

def stepFilter (w : FilterTimerState) : FilterEvent → FilterTimerState
  | .change t => onFilterChange t w
  | .elapse t => elapseTo t w

def runFilter (evs : List FilterEvent) : FilterTimerState :=
  evs.foldl stepFilter initFilterTimerState

/-- The time of the most recent keystroke in an event sequence. -/
def lastChangeAcc (acc : Option Nat) : FilterEvent → Option Nat
  | .change t => some t
  | .elapse _ => acc

def lastChangeTime (evs : List FilterEvent) : Option Nat :=
  evs.foldl lastChangeAcc none

/-- Debounce invariant: either no timer of this component is pending, or
exactly one is, `filterTimeout` holds its handle, and it is due 700 ms
after the most recent keystroke. -/
def FilterInv (w : FilterTimerState) (lastC : Option Nat) : Prop :=
  w.timers = [] ∨
    ∃ id t, w.timers = [(id, t + 700)] ∧ w.filterTimeout = some id ∧
      lastC = some t

lemma stepFilter_preserves_inv (w : FilterTimerState) (lastC : Option Nat)
    (h : FilterInv w lastC) (e : FilterEvent) :
    FilterInv (stepFilter w e) (lastChangeAcc lastC e) := by
  cases e with
  | change t =>
      right
      rcases h with htimers | ⟨id0, t0, htimers, htrack, -⟩
      · refine ⟨w.nextId, t, ?_, ?_, rfl⟩ <;>
          cases hft : w.filterTimeout <;>
            simp [stepFilter, onFilterChange, clearTimeoutById, hft, htimers]
      · refine ⟨w.nextId, t, ?_, ?_, rfl⟩ <;>
          simp [stepFilter, onFilterChange, clearTimeoutById, htrack, htimers]
  | elapse t =>
      rcases h with htimers | ⟨id, t0, htimers, htrack, hlast⟩
      · left
        simp [stepFilter, elapseTo, htimers]
      · by_cases hdue : t0 + 700 ≤ t
        · left
          simp [stepFilter, elapseTo, htimers, hdue]
        · right
          refine ⟨id, t0, ?_, ?_, hlast⟩
          · simp [stepFilter, elapseTo, htimers, hdue]
          · simp [stepFilter, elapseTo, htimers, hdue, htrack]

lemma runFilter_inv_aux (evs : List FilterEvent) (w : FilterTimerState)
    (lastC : Option Nat) (h : FilterInv w lastC) :
    FilterInv (evs.foldl stepFilter w) (evs.foldl lastChangeAcc lastC) := by
  induction evs generalizing w lastC with
  | nil => exact h
  | cons e rest ih =>
      exact ih (stepFilter w e) (lastChangeAcc lastC e)
        (stepFilter_preserves_inv w lastC h e)

lemma runFilter_inv (evs : List FilterEvent) :
    FilterInv (runFilter evs) (lastChangeTime evs) :=
  runFilter_inv_aux evs initFilterTimerState none (Or.inl rfl)

/-- Under pure time passage, the number of fired-or-pending refreshes is
conserved: each due timer converts into exactly one `refreshRoomList`
call. -/
lemma elapseTo_conserves (t : Nat) (w : FilterTimerState) :
    (elapseTo t w).refreshCount + (elapseTo t w).timers.length
      = w.refreshCount + w.timers.length := by
  have hpart := List.length_eq_length_filter_add
    (l := w.timers) (fun p => decide (p.2 ≤ t))
  simp only [elapseTo]
  omega

lemma elapses_refresh_bound (ts : List Nat) (w : FilterTimerState) :
    ((ts.map FilterEvent.elapse).foldl stepFilter w).refreshCount
      ≤ w.refreshCount + w.timers.length := by
  induction ts generalizing w with
  | nil => simp
  | cons t rest ih =>
      simp only [List.map_cons, List.foldl_cons]
      calc ((rest.map FilterEvent.elapse).foldl stepFilter
              (stepFilter w (.elapse t))).refreshCount
          ≤ (stepFilter w (.elapse t)).refreshCount +
              (stepFilter w (.elapse t)).timers.length := ih _
        _ = w.refreshCount + w.timers.length := elapseTo_conserves t w

lemma changes_no_refresh (ts : List Nat) (w : FilterTimerState) :
    ((ts.map FilterEvent.change).foldl stepFilter w).refreshCount
      = w.refreshCount := by
  induction ts generalizing w with
  | nil => rfl
  | cons t rest ih =>
      simp only [List.map_cons, List.foldl_cons]
      rw [ih]
      cases h : w.filterTimeout <;>
        simp [stepFilter, onFilterChange, h, clearTimeoutById]

/-! ## Claim C3 -/

/-- C3: for every sequence of events, at most one debounce timer of the
directory is pending at any time; any pending timer is due exactly 700 ms
after the most recent `onFilterChange` call; and a burst of keystrokes
followed by mere time passage causes at most one `refreshRoomList`
invocation. -/
theorem roomDirectory_filter_debounce (evs : List FilterEvent)
    (keystrokes pauses : List Nat) :
    (runFilter evs).timers.length ≤ 1 ∧
    (∀ id ft, (runFilter evs).timers = [(id, ft)] →
      ∃ t, lastChangeTime evs = some t ∧ ft = t + 700) ∧
    (runFilter (keystrokes.map FilterEvent.change
        ++ pauses.map FilterEvent.elapse)).refreshCount ≤ 1 := by
  refine ⟨?_, ?_, ?_⟩
  · rcases runFilter_inv evs with h | ⟨id, t, h, -, -⟩ <;> simp [h]
  · intro id ft hft
    rcases runFilter_inv evs with h | ⟨id', t, h, -, hlast⟩
    · rw [h] at hft
      cases hft
    · rw [h] at hft
      injection hft with h1 h2
      injection h1 with h1a h1b
      exact ⟨t, hlast, h1b.symm⟩
  · unfold runFilter
    rw [List.foldl_append]
    have hb := elapses_refresh_bound pauses
      ((keystrokes.map FilterEvent.change).foldl stepFilter
        initFilterTimerState)
    have hc := changes_no_refresh keystrokes initFilterTimerState
    have hinv : FilterInv
        ((keystrokes.map FilterEvent.change).foldl stepFilter
          initFilterTimerState)
        ((keystrokes.map FilterEvent.change).foldl lastChangeAcc none) :=
      runFilter_inv_aux _ initFilterTimerState none (Or.inl rfl)
    have hlen : ((keystrokes.map FilterEvent.change).foldl stepFilter
        initFilterTimerState).timers.length ≤ 1 := by
      rcases hinv with h | ⟨id, t, h, -, -⟩ <;> simp [h]
    have h0 : initFilterTimerState.refreshCount = 0 := rfl
    omega

/-- Witness for C3: a single keystroke at time 5 leaves exactly one
pending timer, due at 705 = 5 + 700. -/
theorem roomDirectory_filter_debounce_witness :
    ∃ t, lastChangeTime [FilterEvent.change 5] = some t ∧ 705 = t + 700 :=
  (roomDirectory_filter_debounce [FilterEvent.change 5] [] []).2.1 0 705
    (by decide)

/-! ## SpaceCreateMenu: nameToAlias

`nameToAlias` manipulates a JS string character by character; we model the
string as its list of UTF-16 code units (`List Nat`). JS `toLowerCase` is
Unicode-aware while the model only lowers ASCII A–Z; this is sound for
every claim below because any unit outside ASCII `[a-zA-Z0-9_-]` — whether
lowered or not — is removed by the final regex replacement either way. -/

/-- The character class `\s` of JS regexes (and the set `trim` strips):
tab, line feed, vertical tab, form feed, carriage return, space, NBSP,
Ogham space mark, the U+2000–U+200A range, line/paragraph separator,
narrow NBSP, medium mathematical space, ideographic space and BOM. -/
def jsIsSpaceCode (n : Nat) : Bool :=
  n = 9 || n = 10 || n = 11 || n = 12 || n = 13 || n = 32 || n = 160 ||
  n = 5760 || (8192 ≤ n && n ≤ 8202) || n = 8232 || n = 8233 || n = 8239 ||
  n = 8287 || n = 12288 || n = 65279

/-- `String.prototype.trim`: strip whitespace from both ends. -/
def jsTrim (l : List Nat) : List Nat :=
  ((l.dropWhile jsIsSpaceCode).reverse.dropWhile jsIsSpaceCode).reverse

/-- ASCII lowering of one code unit (A–Z ↦ a–z). -/
def jsToLowerCode (n : Nat) : Nat :=
  if 65 ≤ n ∧ n ≤ 90 then n + 32 else n

def headIsSpace : List Nat → Bool
  | n :: _ => jsIsSpaceCode n
  | [] => false

/-- `.replace(/\s+/g, "-")`: each maximal run of whitespace becomes a
single hyphen (code 45); only the last unit of a run emits it. -/
def collapseWhitespaceRuns : List Nat → List Nat
  | [] => []
  | c :: rest =>
      if jsIsSpaceCode c then
        if headIsSpace rest then collapseWhitespaceRuns rest
        else 45 :: collapseWhitespaceRuns rest
      else c :: collapseWhitespaceRuns rest

/-- The class kept by `.replace(/[^a-z0-9_-]+/gi, "")`: with the `i` flag
the negated class also spares A–Z. -/
def isAllowedAliasChar (n : Nat) : Bool :=
  (97 ≤ n && n ≤ 122) || (65 ≤ n && n ≤ 90) || (48 ≤ n && n ≤ 57) ||
  n = 95 || n = 45

/-- `nameToAlias(name, domain)`: `#` (35) + localpart + `:` (58) + domain,
where the localpart is the trimmed, lowercased name with whitespace runs
hyphenated and all other characters outside `[a-zA-Z0-9_-]` removed. -/
def nameToAlias (name domain : List Nat) : List Nat :=
  let localpart :=
    (collapseWhitespaceRuns ((jsTrim name).map jsToLowerCode)).filter
      isAllowedAliasChar
  35 :: (localpart ++ 58 :: domain)

lemma mem_collapseWhitespaceRuns (l : List Nat) (c : Nat)
    (h : c ∈ collapseWhitespaceRuns l) : c = 45 ∨ c ∈ l := by
  induction l with
  | nil => simp [collapseWhitespaceRuns] at h
  | cons a rest ih =>
      by_cases ha : jsIsSpaceCode a = true
      · by_cases hh : headIsSpace rest = true
        · simp only [collapseWhitespaceRuns, ha, hh, if_true] at h
          exact (ih h).imp id (List.mem_cons_of_mem a)
        · simp only [collapseWhitespaceRuns, ha, hh, if_true,
            Bool.false_eq_true, if_false, List.mem_cons] at h
          rcases h with h | h
          · exact Or.inl h
          · exact (ih h).imp id (List.mem_cons_of_mem a)
      · simp only [collapseWhitespaceRuns, ha, Bool.false_eq_true, if_false,
          List.mem_cons] at h
        rcases h with h | h
        · exact Or.inr (h ▸ List.mem_cons_self a rest)
        · exact (ih h).imp id (List.mem_cons_of_mem a)

/-! ## Claim C8 -/

/-- C8: `nameToAlias(name, domain)` always has the shape
`"#" ++ localpart ++ ":" ++ domain`, and the localpart contains only code
units from `[a-z0-9_-]` — lowercase letters (97–122), digits (48–57),
underscore (95) and hyphen (45); in particular no whitespace and no
uppercase letters. -/
theorem nameToAlias_shape_and_charset (name domain : List Nat) :
    ∃ localpart,
      nameToAlias name domain = 35 :: (localpart ++ 58 :: domain) ∧
      ∀ c ∈ localpart,
        (97 ≤ c ∧ c ≤ 122) ∨ (48 ≤ c ∧ c ≤ 57) ∨ c = 95 ∨ c = 45 := by
  refine ⟨(collapseWhitespaceRuns ((jsTrim name).map jsToLowerCode)).filter
    isAllowedAliasChar, rfl, ?_⟩
  intro c hc
  rw [List.mem_filter] at hc
  obtain ⟨hmem, hallow⟩ := hc
  rcases mem_collapseWhitespaceRuns _ _ hmem with h45 | hmap
  · exact Or.inr (Or.inr (Or.inr h45))
  · rw [List.mem_map] at hmap
    obtain ⟨b, -, rfl⟩ := hmap
    have hnotup : ¬(65 ≤ jsToLowerCode b ∧ jsToLowerCode b ≤ 90) := by
      unfold jsToLowerCode
      by_cases h : 65 ≤ b ∧ b ≤ 90
      · rw [if_pos h]
        omega
      · rw [if_neg h]
        omega
    unfold isAllowedAliasChar at hallow
    simp only [Bool.or_eq_true, Bool.and_eq_true, decide_eq_true_eq] at hallow
    omega

/-! ## LeftPanelLiveShareWarning -/

/-- JS truthiness of the optional `isMinimized` prop. -/
def jsTruthyBool : Option Bool → Bool
  | some b => b
  | none => false

/-- What the warning div contains: the live-location icon or the
"You are sharing your live location" text. -/
inductive LiveShareContent where
  | liveLocationIcon
  | sharingLocationText
  deriving DecidableEq

/-- The rendered warning element: whether the minimized CSS class is
applied, the `title` attribute, and the child content. -/
structure LiveShareWarningElement where
  minimizedClass : Bool
  title : Option String
  content : LiveShareContent
  deriving DecidableEq

/-- `LeftPanelLiveShareWarning`: renders `null` unless
`isMonitoringLiveLocation`; otherwise a div, minimized (icon + title)
or not (text). -/
def leftPanelLiveShareWarning (isMonitoringLiveLocation : Bool)
    (isMinimized : Option Bool) : Option LiveShareWarningElement :=
  if ¬isMonitoringLiveLocation then none
  else
    some { minimizedClass := jsTruthyBool isMinimized
           title := if jsTruthyBool isMinimized then
               some "You are sharing your live location"
             else none
           content := if jsTruthyBool isMinimized then .liveLocationIcon
             else .sharingLocationText }

/-! ## Claim C5 -/

/-- C5: the indicator renders nothing exactly when `OwnBeaconStore` reports
that live location is not being monitored; when it is monitored, the
rendered element shows the icon when minimized and the text otherwise. -/
theorem leftPanelLiveShareWarning_render (monitoring : Bool)
    (isMinimized : Option Bool) :
    (leftPanelLiveShareWarning monitoring isMinimized = none ↔
      monitoring = false) ∧
    (∀ e, leftPanelLiveShareWarning monitoring isMinimized = some e →
      e.minimizedClass = jsTruthyBool isMinimized ∧
      e.content = (if jsTruthyBool isMinimized then .liveLocationIcon
        else .sharingLocationText)) := by
  cases monitoring with
  | false =>
      refine ⟨by simp [leftPanelLiveShareWarning], ?_⟩
      intro e he
      simp [leftPanelLiveShareWarning] at he
  | true =>
      refine ⟨by simp [leftPanelLiveShareWarning], ?_⟩
      intro e he
      simp only [leftPanelLiveShareWarning, not_true, Bool.not_true,
        Bool.false_eq_true, if_false, Option.some.injEq] at he
      subst he
      exact ⟨rfl, rfl⟩

/-- Witness for C5: while monitoring and minimized, the element carries
the minimized class and shows the icon. -/
theorem leftPanelLiveShareWarning_render_witness :
    (true : Bool) = true ∧
    ({ minimizedClass := true,
       title := some "You are sharing your live location",
       content := .liveLocationIcon } : LiveShareWarningElement).content
      = LiveShareContent.liveLocationIcon :=
  ⟨rfl,
   ((leftPanelLiveShareWarning_render true (some true)).2
     { minimizedClass := true,
       title := some "You are sharing your live location",
       content := .liveLocationIcon } rfl).2⟩

/-! ## SpaceCreateMenu: create click -/

/-- The wizard's visibility choice (`Visibility.Public`/`Private`), `none`
before a type is chosen. -/
inductive SpaceCreateVisibility where
  | Public
  | Private
  deriving DecidableEq

/-- The externally visible steps `onSpaceCreateClick` performs, in
order. -/
inductive SpaceCreateAction where
  | setBusy (b : Bool)
  | validateSpaceName
  | focusSpaceName
  | validateSpaceAlias
  | focusSpaceAlias
  | invokeCreateRoom
  deriving DecidableEq

/-- `onSpaceCreateClick`: returns the trace of actions it performs and the
`busy` flag it leaves behind. When `busy` it returns at once; otherwise
it sets busy, requires the name field to validate (refocusing and
resetting busy on failure), validates the alias field when the space is
public (resetting busy on failure), then calls `createRoom` (after which
`busy` is never reset, whether creation succeeds or throws). -/
def onSpaceCreateClick (busy : Bool)
    (visibility : Option SpaceCreateVisibility)
    (nameValid aliasValid : Bool) : List SpaceCreateAction × Bool :=
  if busy then ([], busy)
  else if ¬nameValid then
    ([.setBusy true, .validateSpaceName, .focusSpaceName,
      .validateSpaceName, .setBusy false], false)
  else if visibility = some .Public ∧ ¬aliasValid then
    ([.setBusy true, .validateSpaceName, .validateSpaceAlias,
      .focusSpaceAlias, .validateSpaceAlias, .setBusy false], false)
  else
    ([.setBusy true, .validateSpaceName] ++
      (if visibility = some .Public then [.validateSpaceAlias] else []) ++
      [.invokeCreateRoom], true)

/-! ## Claim C10 -/

/-- C10: while a space creation is in progress (`busy`), a further
invocation performs no action at all — no validation and no `createRoom` —
so a second `createRoom` is never started; when not busy, `busy` is set to
true before any validation, and every validation-failure path resets it to
false without reaching `createRoom`. -/
theorem spaceCreateMenu_busy_guard (busy : Bool)
    (visibility : Option SpaceCreateVisibility) (nameValid aliasValid : Bool) :
    (busy = true →
      onSpaceCreateClick busy visibility nameValid aliasValid = ([], true)) ∧
    (busy = false →
      (onSpaceCreateClick busy visibility nameValid aliasValid).1.take 2
        = [.setBusy true, .validateSpaceName]) ∧
    (busy = false → nameValid = false →
      (onSpaceCreateClick busy visibility nameValid aliasValid).2 = false ∧
      SpaceCreateAction.invokeCreateRoom ∉
        (onSpaceCreateClick busy visibility nameValid aliasValid).1) ∧
    (busy = false → nameValid = true → visibility = some .Public →
      aliasValid = false →
      (onSpaceCreateClick busy visibility nameValid aliasValid).2 = false ∧
      SpaceCreateAction.invokeCreateRoom ∉
        (onSpaceCreateClick busy visibility nameValid aliasValid).1) := by
  refine ⟨?_, ?_, ?_, ?_⟩
  · intro h
    subst h
    rfl
  · intro h
    subst h
    cases nameValid with
    | false => rfl
    | true =>
        by_cases hp : visibility = some SpaceCreateVisibility.Public
        · cases aliasValid with
          | false => simp [onSpaceCreateClick, hp]
          | true => simp [onSpaceCreateClick, hp]
        · simp [onSpaceCreateClick, hp]
  · intro h hn
    subst h
    subst hn
    refine ⟨rfl, ?_⟩
    simp [onSpaceCreateClick]
  · intro h hn hv ha
    subst h
    subst hn
    subst ha
    rw [hv]
    refine ⟨rfl, ?_⟩
    decide

/-- Witness for C10: with a creation already in flight, clicking Create
again does nothing. -/
theorem spaceCreateMenu_busy_guard_witness :
    onSpaceCreateClick true (some .Public) true true = ([], true) :=
  (spaceCreateMenu_busy_guard true (some .Public) true true).1 rfl

/-! ## VideoFeed: feed listener lifecycle

Feeds are identified by numbers. The world tracks, per feed, whether this
component's `NewStream`/`MuteStateChanged` listener pair is attached and
whether its volume activity is being measured. `updateFeed(oldFeed,
newFeed)` is called with `this.props.feed` as it is at call time:
the old feed from `componentWillUnmount`, the *new* feed from
`componentDidMount` and `componentDidUpdate`. -/

/-- The `SDPStreamMetadataPurpose` values `updateFeed` distinguishes. -/
inductive FeedPurpose where
  | Usermedia
  | Screenshare
  deriving DecidableEq

/-- Per-feed listener and volume-measurement registration of this
component. -/
structure FeedWorld where
  listenersAttached : Nat → Bool
  volumeMeasured : Nat → Bool

/-- `updateFeed(oldFeed, newFeed)` exactly as written: when the feeds
differ, the removal branch runs if there was an old feed and the addition
branch runs if there is a new feed — but both branches act on
`this.props.feed` (`propsFeed`), not on their respective parameters. -/
def updateFeed (purpose : Nat → FeedPurpose) (propsFeed : Nat)
    (oldFeed newFeed : Option Nat) (w : FeedWorld) : FeedWorld :=
  if oldFeed = newFeed then w
  else
    let w1 :=
      if oldFeed.isSome then
        { listenersAttached := fun f =>
            if f = propsFeed then false else w.listenersAttached f
          volumeMeasured := fun f =>
            if purpose propsFeed = .Usermedia ∧ f = propsFeed then false
            else w.volumeMeasured f }
      else w
    if newFeed.isSome then
      { listenersAttached := fun f =>
          if f = propsFeed then true else w1.listenersAttached f
        volumeMeasured := fun f =>
          if purpose propsFeed = .Usermedia ∧ f = propsFeed then true
          else w1.volumeMeasured f }
    else w1

/-! ## Claim C2 (code bug) -/

/-- C2 fails on the code: after the feed prop changes from feed 1 to
feed 2 (listeners attached to feed 1 since mount), `componentDidUpdate`
calls `updateFeed(feed1, feed2)` with `this.props.feed = feed2`; the
removal branch therefore strips (and the addition branch re-adds) the
listeners of the *new* feed, leaving feed 1's listener pair and volume
measurement attached — two feeds carry the pair, contradicting the
claimed invariant that exactly the current feed does. -/
theorem videoFeed_updateFeed_leaves_old_listeners :
    ((updateFeed (fun _ => .Usermedia) 2 (some 1) (some 2)
        { listenersAttached := fun f => f == 1,
          volumeMeasured := fun f => f == 1 }).listenersAttached 1 = true) ∧
    ((updateFeed (fun _ => .Usermedia) 2 (some 1) (some 2)
        { listenersAttached := fun f => f == 1,
          volumeMeasured := fun f => f == 1 }).listenersAttached 2 = true) ∧
    ((updateFeed (fun _ => .Usermedia) 2 (some 1) (some 2)
        { listenersAttached := fun f => f == 1,
          volumeMeasured := fun f => f == 1 }).volumeMeasured 1 = true) := by
  refine ⟨?_, ?_, ?_⟩ <;> decide

end MatrixReactSdk
